import Mathlib

/-!
Verification of the Animal-Classification training pipeline.

Part 1 models the command-line argument handling of `src/train.py`
(the `argparse` parser, its defaults and converters, and the hardcoded
literal argument list passed to `parse_args`).

Part 2 models the training/validation/testing core (Evaluator, Trainer,
Training Loop with best-checkpoint selection).  The functions
`train_validate` and `evaluate_model` live in `shared_funcs.py`, which is
not part of the available sources; they are modelled from the spec
(sections 4.1-4.3 of the design document), faithful to its words, with
the final restore-and-test phase taken from `train.py` lines 183-186.
-/

namespace AnimalClassification

/-! ## Part 1: argument parsing in `src/train.py` -/

/-- Python `bool(s)` for a string `s`: true iff the string is non-empty.
This is the converter `argparse` applies for `type=bool`. -/
def pyBool (s : String) : Bool := s ≠ ""

/-- Split a list of characters at every occurrence of the separator. -/
def splitOnChar (c : Char) : List Char → List (List Char)
  | [] => [[]]
  | x :: xs =>
    let r := splitOnChar c xs
    if x = c then [] :: r
    else
      match r with
      | [] => [[x]]
      | h :: t => (x :: h) :: t

/-- Value of a list of decimal digit characters as a natural number. -/
def digitsVal (l : List Char) : Nat :=
  l.foldl (fun acc c => 10 * acc + (c.toNat - 48)) 0

/-- Whether a list of characters is a non-empty run of decimal digits. -/
def allDigits (l : List Char) : Bool :=
  l ≠ [] && l.all (fun c => '0' ≤ c && c ≤ '9')

/-- Python `int(s)` for a string of decimal digits (the only shape used
in `train.py`).  Returns `none` on any other input. -/
def pyInt (s : String) : Option Int :=
  if allDigits s.toList then some (Int.ofNat (digitsVal s.toList)) else none

/-- Python `float(s)` for the literal shapes used in `train.py`:
an integer part, an optional fractional part after a dot, and an
optional exponent after `e` with an optional minus sign.  The result is
the exact rational value of the decimal literal. -/
def pyFloat (s : String) : Option ℚ :=
  let withExpo : Option (List Char × Int) :=
    match splitOnChar 'e' s.toList with
    | [m] => some (m, 0)
    | [m, '-' :: ds] => if allDigits ds then some (m, Int.negOfNat (digitsVal ds)) else none
    | [m, ds] => if allDigits ds then some (m, Int.ofNat (digitsVal ds)) else none
    | _ => none
  match withExpo with
  | none => none
  | some (m, e) =>
    let base : Option (Nat × Nat) :=
      match splitOnChar '.' m with
      | [ip] => if allDigits ip then some (digitsVal ip, 1) else none
      | [ip, fp] =>
        if allDigits ip && allDigits fp then
          some (digitsVal ip * Nat.pow 10 fp.length + digitsVal fp, Nat.pow 10 fp.length)
        else none
      | _ => none
    match base with
    | none => none
    | some (n, d) =>
      match e with
      | Int.ofNat k => some (mkRat (Int.ofNat (n * Nat.pow 10 k)) d)
      | Int.negSucc k => some (mkRat (Int.ofNat n) (d * Nat.pow 10 (k + 1)))

/-- Python `float(s)`, defaulting to `0` where `train.py` never produces a
parse failure (all literals in the script parse successfully). -/
def pyFloatD (s : String) : ℚ := (pyFloat s).getD 0

/-- Python `int(s)` with the same convention. -/
def pyIntD (s : String) : Int := (pyInt s).getD 0

/-- The parsed argument namespace of `train.py` (one field per
`parser.add_argument` call, lines 22-61). -/
structure Args where
  image_dir : Option String
  path_to_save_results : Option String
  run_test : Bool
  archi : String
  pretrained : Bool
  train_all_weights : Bool
  use_data_augmentation : Bool
  use_gpu : Bool
  num_classes : Int
  lr : ℚ
  betadist_alpha : ℚ
  betadist_beta : ℚ
  eps : ℚ
  weight_decay : ℚ
  epochs : Int
  step_size : Int
  gamma : ℚ
  batch_size : Int
  img_size : Int
  crop_size : Int
deriving DecidableEq

/-- The parser defaults of `train.py`.  `argparse` applies the `type`
converter to a default that is given as a string (as for `num_classes`,
`lr`, `eps`, `weight_decay`, `epochs`, `step_size`, `gamma`,
`batch_size`, `img_size`, `crop_size`); defaults that are already
non-strings (`True`, `0.9`, `0.99`) are taken as-is. -/
def defaultArgs : Args where
  image_dir := none
  path_to_save_results := none
  run_test := true
  archi := "resnet50"
  pretrained := true
  train_all_weights := true
  use_data_augmentation := true
  use_gpu := true
  num_classes := pyIntD "3"
  lr := pyFloatD "0.001"
  betadist_alpha := mkRat 9 10
  betadist_beta := mkRat 99 100
  eps := pyFloatD "1e-8"
  weight_decay := pyFloatD "0"
  epochs := pyIntD "25"
  step_size := pyIntD "5"
  gamma := pyFloatD "0.1"
  batch_size := pyIntD "32"
  img_size := pyIntD "360"
  crop_size := pyIntD "299"

/-- Store one `--flag value` pair into the namespace, applying the
declared `type` converter, exactly as the `add_argument` declarations of
`train.py` direct.  Unknown flags are left unstored (argparse would
reject them; no unknown flag occurs in the embedded list). -/
def setArg (a : Args) (flag v : String) : Args :=
  if flag = "--image_dir" then { a with image_dir := some v }
  else if flag = "--path_to_save_results" then { a with path_to_save_results := some v }
  else if flag = "--run_test" then { a with run_test := pyBool v }
  else if flag = "--archi" then { a with archi := v }
  else if flag = "--pretrained" then { a with pretrained := pyBool v }
  else if flag = "--train_all_weights" then { a with train_all_weights := pyBool v }
  else if flag = "--use_data_augmentation" then { a with use_data_augmentation := pyBool v }
  else if flag = "--use_gpu" then { a with use_gpu := pyBool v }
  else if flag = "--num_classes" then { a with num_classes := pyIntD v }
  else if flag = "--lr" then { a with lr := pyFloatD v }
  else if flag = "--betadist_alpha" then { a with betadist_alpha := pyFloatD v }
  else if flag = "--betadist_beta" then { a with betadist_beta := pyFloatD v }
  else if flag = "--eps" then { a with eps := pyFloatD v }
  else if flag = "--weight_decay" then { a with weight_decay := pyFloatD v }
  else if flag = "--epochs" then { a with epochs := pyIntD v }
  else if flag = "--step_size" then { a with step_size := pyIntD v }
  else if flag = "--gamma" then { a with gamma := pyFloatD v }
  else if flag = "--batch_size" then { a with batch_size := pyIntD v }
  else if flag = "--img_size" then { a with img_size := pyIntD v }
  else if flag = "--crop_size" then { a with crop_size := pyIntD v }
  else a

/-- Process an explicit argument list (alternating flags and values, the
only shape occurring in `train.py`) into the namespace. -/
def parseArgList (a : Args) : List String → Args
  | flag :: v :: rest => parseArgList (setArg a flag v) rest
  | _ => a

/-- The hardcoded literal argument list passed to `parser.parse_args` in
`train.py` lines 63-74. -/
def embeddedArgv : List String :=
  ["--image_dir", "C:/_for-temp-data-that-need-SSD-speed/ProjectMast_FYP_Media",
   "--path_to_save_results", "E:/JoejynDocuments/CNN_Animal_ID/Nosyarlin/SBWR_BTNR_CCNR/Results/Test/",
   "--run_test", "False",
   "--archi", "mobilenet",
   "--epochs", "15",
   "--lr", "0.001",
   "--betadist_alpha", "0.9",
   "--betadist_beta", "0.99",
   "--batch_size", "32",
   "--weight_decay", "0"]

/-- The arguments `train.py` actually runs with.  `parse_args` is called
on the embedded literal list, so the real command line `cli` is never
consulted. -/
def mainArgs (_cli : List String) : Args := parseArgList defaultArgs embeddedArgv

/-- The test-phase gate of `train.py` lines 179-180: the script exits
before testing iff `not args.run_test`; the test phase executes iff this
returns `true`. -/
def testPhaseRuns (a : Args) : Bool := !(!a.run_test)

/-- The full argument namespace `train.py` runs with, spelled out. -/
def actualArgs : Args where
  image_dir := some "C:/_for-temp-data-that-need-SSD-speed/ProjectMast_FYP_Media"
  path_to_save_results := some "E:/JoejynDocuments/CNN_Animal_ID/Nosyarlin/SBWR_BTNR_CCNR/Results/Test/"
  run_test := true
  archi := "mobilenet"
  pretrained := true
  train_all_weights := true
  use_data_augmentation := true
  use_gpu := true
  num_classes := 3
  lr := mkRat 1 1000
  betadist_alpha := mkRat 9 10
  betadist_beta := mkRat 99 100
  eps := mkRat 1 100000000
  weight_decay := 0
  epochs := 15
  step_size := 5
  gamma := mkRat 1 10
  batch_size := 32
  img_size := 360
  crop_size := 299

/-! ## Part 2: the training/validation/testing core

`evaluate_model` and `train_validate` live in `shared_funcs.py`, which is
not among the available sources; they are modelled from the spec
(sections 2, 3, 4.1, 4.2, 4.3), with the restore-and-test phase taken
from `train.py` lines 183-186.  Scalar metric values (losses, scores,
accuracies) are modelled as rationals. -/

/-- A batch: a pair of an input list and an integer label list, as
produced by the external dataloader (spec section 3). -/
structure Batch (ι : Type) where
  inputs : List ι
  labels : List Nat
deriving DecidableEq

/-- Number of samples in a batch. -/
def batchSize {ι : Type} (b : Batch ι) : Nat := b.inputs.length

/-- Modelled from the spec: the external collaborators of the core
(section 6) — the model as a function from parameters and an input to
per-class scores, the loss function, the optimizer-driven parameter
update for one batch (clear gradients, forward, backward, step), and the
learning-rate schedule advance. -/
structure TrainEnv (P S ι : Type) where
  model : P → ι → List ℚ
  lossF : List (List ℚ) → List Nat → ℚ
  trainStep : S → P → Batch ι → P
  schedStep : S → S

/-- Scan for the first maximal entry: `i` is the index of the next
element, `bi`/`bv` the index and value of the best entry so far. -/
def argmaxGo (i bi : Nat) (bv : ℚ) : List ℚ → Nat
  | [] => bi
  | x :: xs => if bv < x then argmaxGo (i + 1) i x xs else argmaxGo (i + 1) bi bv xs

/-- Index of the first maximal entry of a list of class scores (argmax
over the class-score dimension). -/
def argmaxIdx : List ℚ → Nat
  | [] => 0
  | x :: xs => argmaxGo 1 0 x xs

/-- Count of predictions whose argmax equals the label (elementwise over
the batch). -/
def countCorrect : List (List ℚ) → List Nat → Nat
  | p :: ps, l :: ls => (if argmaxIdx p = l then 1 else 0) + countCorrect ps ls
  | _, _ => 0

/-- Correct-prediction count of one batch under parameters `p`. -/
def batchCorrect {P S ι : Type} (env : TrainEnv P S ι) (p : P) (b : Batch ι) : Nat :=
  countCorrect (b.inputs.map (env.model p)) b.labels

/-- Scalar loss of one batch under parameters `p`. -/
def batchLoss {P S ι : Type} (env : TrainEnv P S ι) (p : P) (b : Batch ι) : ℚ :=
  env.lossF (b.inputs.map (env.model p)) b.labels

/-- Aggregate counters over a split: total correct predictions, total
sample count, and the sum of the per-batch scalar losses. -/
structure SplitStats where
  correct : Nat
  total : Nat
  lossSum : ℚ
deriving DecidableEq

/-- Per-batch statistics of an evaluation pass (parameters fixed). -/
def evalStats {P S ι : Type} (env : TrainEnv P S ι) (p : P) :
    List (Batch ι) → SplitStats
  | [] => ⟨0, 0, 0⟩
  | b :: bs =>
    let rest := evalStats env p bs
    ⟨batchCorrect env p b + rest.correct,
     batchSize b + rest.total,
     batchLoss env p b + rest.lossSum⟩

/-- Modelled from the spec: `evaluate_model` of `shared_funcs.py` is not
in the sources; section 4.1 Evaluator.  Iterates every batch once with
gradients disabled, accumulates correct counts, sample counts, and
per-batch losses, and returns the parameters (unchanged) together with
`some (accuracy, mean loss)` where accuracy = correct / total samples
and mean loss = loss sum / number of batches; `none` stands for the
uncaught division-by-zero fault on an empty split. -/
def evaluate_model {P S ι : Type} (env : TrainEnv P S ι) (p : P)
    (bs : List (Batch ι)) : P × Option (ℚ × ℚ) :=
  let st := evalStats env p bs
  if st.total = 0 then (p, none)
  else (p, some ((st.correct : ℚ) / (st.total : ℚ), st.lossSum / (bs.length : ℚ)))

/-- One training pass: iterates every batch once in order, recording the
pre-update correct count and loss of each batch and applying one
optimizer step per batch; returns the final parameters and the
aggregated counters. -/
def trainRun {P S ι : Type} (env : TrainEnv P S ι) (s : S) (p : P) :
    List (Batch ι) → P × SplitStats
  | [] => (p, ⟨0, 0, 0⟩)
  | b :: bs =>
    let c := batchCorrect env p b
    let l := batchLoss env p b
    let p1 := env.trainStep s p b
    let rest := trainRun env s p1 bs
    (rest.1, ⟨c + rest.2.correct, batchSize b + rest.2.total, l + rest.2.lossSum⟩)

/-- Modelled from the spec: the Trainer of `shared_funcs.py` is not in
the sources; section 4.2.  Runs one epoch of per-batch updates and
returns the mutated parameters and `some (accuracy, mean loss)` under
the same aggregation rule as the Evaluator (`none` for the
division-by-zero fault on an empty split). -/
def train_model {P S ι : Type} (env : TrainEnv P S ι) (s : S) (p : P)
    (bs : List (Batch ι)) : P × Option (ℚ × ℚ) :=
  let r := trainRun env s p bs
  if r.2.total = 0 then (r.1, none)
  else (r.1, some ((r.2.correct : ℚ) / (r.2.total : ℚ), r.2.lossSum / (bs.length : ℚ)))

/-- Modelled from the spec: checkpoint selection inside
`train_validate` of `shared_funcs.py` (section 4.3 step 4).  Replace the
best checkpoint when none exists yet or when the stored best validation
accuracy is strictly below this epoch's; otherwise keep it. -/
def updateBest {P : Type} (best : Option (P × ℚ)) (p : P) (acc : ℚ) :
    Option (P × ℚ) :=
  match best with
  | none => some (p, acc)
  | some (q, b) => if b < acc then some (p, acc) else some (q, b)

/-- The spec's checkpoint condition, stated declaratively in its own
words: replace iff no best checkpoint exists yet or this epoch's
validation accuracy is strictly greater than the stored one. -/
def shouldReplace {P : Type} (best : Option (P × ℚ)) (acc : ℚ) : Bool :=
  match best with
  | none => true
  | some qb => decide (qb.2 < acc)

/-- State of the Training Loop between epochs: current parameters,
schedule state, best checkpoint (parameter snapshot and its validation
accuracy), and the four metric histories. -/
structure LoopState (P S : Type) where
  params : P
  sched : S
  best : Option (P × ℚ)
  train_loss : List ℚ
  train_acc : List ℚ
  val_loss : List ℚ
  val_acc : List ℚ
deriving DecidableEq

/-- The Training Loop's starting state: no best checkpoint, empty
histories. -/
def initState {P S : Type} (p : P) (s : S) : LoopState P S :=
  ⟨p, s, none, [], [], [], []⟩

/-- Modelled from the spec: one epoch of `train_validate` (section 4.3
steps 1-4): Trainer on the training split, schedule advance, Evaluator
on the validation split, checkpoint rule; metric pairs appended to the
histories in epoch order.  A `none` from Trainer or Evaluator aborts the
epoch (failure propagates unmodified). -/
def epochStep {P S ι : Type} (env : TrainEnv P S ι)
    (trainDL valDL : List (Batch ι)) (st : LoopState P S) :
    Option (LoopState P S) :=
  let tr := train_model env st.sched st.params trainDL
  match tr.2 with
  | none => none
  | some tm =>
    let s1 := env.schedStep st.sched
    let ev := evaluate_model env tr.1 valDL
    match ev.2 with
    | none => none
    | some vm =>
      some
        { params := ev.1
          sched := s1
          best := updateBest st.best ev.1 vm.1
          train_loss := st.train_loss ++ [tm.2]
          train_acc := st.train_acc ++ [tm.1]
          val_loss := st.val_loss ++ [vm.2]
          val_acc := st.val_acc ++ [vm.1] }

/-- Modelled from the spec: the epoch recursion of `train_validate`
(section 4.3): epochs run strictly in increasing order; any epoch
failure aborts the whole run with no retry. -/
def runEpochs {P S ι : Type} (env : TrainEnv P S ι)
    (trainDL valDL : List (Batch ι)) : Nat → LoopState P S → Option (LoopState P S)
  | 0, st => some st
  | n + 1, st =>
    match epochStep env trainDL valDL st with
    | none => none
    | some st1 => runEpochs env trainDL valDL n st1

/-- The loop state after `k` epochs, starting from fresh initial state. -/
def stateAfter {P S ι : Type} (env : TrainEnv P S ι)
    (trainDL valDL : List (Batch ι)) (p : P) (s : S) (k : Nat) :
    Option (LoopState P S) :=
  runEpochs env trainDL valDL k (initState p s)

/-- Modelled from the spec: `train_validate` of `shared_funcs.py` is not
in the sources; section 4.3.  Runs all epochs from the initial state and
returns the best-checkpoint weights together with the four per-epoch
histories, as unpacked by `train.py` line 161. -/
def train_validate {P S ι : Type} (env : TrainEnv P S ι) (epochs : Nat)
    (p : P) (s : S) (trainDL valDL : List (Batch ι)) :
    Option (P × List ℚ × List ℚ × List ℚ × List ℚ) :=
  match stateAfter env trainDL valDL p s epochs with
  | none => none
  | some st =>
    match st.best with
    | none => none
    | some wb => some (wb.1, st.train_loss, st.train_acc, st.val_loss, st.val_acc)

/-- Everything a completed run returns (weights, the four histories, and
the final test metrics). -/
structure RunResult (P : Type) where
  weights : P
  train_loss : List ℚ
  train_acc : List ℚ
  val_loss : List ℚ
  val_acc : List ℚ
  test_acc : ℚ
  test_loss : ℚ
deriving DecidableEq

/-- The whole training-and-testing pipeline: `train_validate`, then the
final phase of `train.py` lines 183-186 — restore the best-checkpoint
weights into the model (`model.load_state_dict(weights)`) and invoke
`evaluate_model` once on the test split. -/
def runPipeline {P S ι : Type} (env : TrainEnv P S ι) (epochs : Nat)
    (p : P) (s : S) (trainDL valDL testDL : List (Batch ι)) :
    Option (RunResult P) :=
  match train_validate env epochs p s trainDL valDL with
  | none => none
  | some (w, tl, ta, vl, va) =>
    let ev := evaluate_model env w testDL
    match ev.2 with
    | none => none
    | some t => some ⟨w, tl, ta, vl, va, t.1, t.2⟩

/-- The stored best validation accuracy of a loop state, if any. -/
def bestAcc {P S : Type} (st : LoopState P S) : Option ℚ :=
  st.best.map Prod.snd

/-- Maximum of a list of rationals (`none` on the empty list). -/
def listMaxQ : List ℚ → Option ℚ
  | [] => none
  | x :: xs =>
    match listMaxQ xs with
    | none => some x
    | some m => some (max x m)

/-- Order on optional accuracies: a missing best checkpoint is below
everything; present ones compare by value. -/
def oLe : Option ℚ → Option ℚ → Prop
  | none, _ => True
  | some _, none => False
  | some a, some b => a ≤ b

/-- The parameters the model holds just before each batch of a training
pass (the Trainer mutates parameters once per batch, in batch order). -/
def preParams {P S ι : Type} (env : TrainEnv P S ι) (s : S) (p : P) :
    List (Batch ι) → List P
  | [] => []
  | b :: bs => p :: preParams env s (env.trainStep s p b) bs

/-- A tiny concrete environment for exercising the core on closed
inputs: one class, zero loss, each optimizer step increments the
parameter counter. -/
def tinyEnv : TrainEnv Nat Nat Nat where
  model := fun _ _ => [0]
  lossF := fun _ _ => 0
  trainStep := fun _ p _ => p + 1
  schedStep := fun s => s + 1

/-- A one-sample batch whose label matches the model's constant
prediction. -/
def tinyBatch : Batch Nat := ⟨[0], [0]⟩

/-- The loop state reached after one epoch of `tinyEnv` on
single-batch splits. -/
def tinySt1 : LoopState Nat Nat :=
  ⟨1, 1, some (1, 1), [0], [1], [0], [1]⟩

/-- The loop state reached after two epochs of `tinyEnv` on
single-batch splits (equal validation accuracy both epochs, so the
best checkpoint stays the one from epoch 0). -/
def tinySt2 : LoopState Nat Nat :=
  ⟨2, 2, some (1, 1), [0, 0], [1, 1], [0, 0], [1, 1]⟩

/-! ## Lemma layer -/

/-- Anatomy of a successful epoch: a successful `epochStep` is exactly a
successful Trainer call followed by a successful Evaluator call, the
checkpoint rule, and one append to each history. -/
theorem epochStep_some {P S ι : Type} {env : TrainEnv P S ι}
    {tDL vDL : List (Batch ι)} {st st' : LoopState P S}
    (h : epochStep env tDL vDL st = some st') :
    ∃ tm vm : ℚ × ℚ,
      (train_model env st.sched st.params tDL).2 = some tm ∧
      (evaluate_model env (train_model env st.sched st.params tDL).1 vDL).2 = some vm ∧
      st' =
        { params := (evaluate_model env (train_model env st.sched st.params tDL).1 vDL).1
          sched := env.schedStep st.sched
          best := updateBest st.best
            (evaluate_model env (train_model env st.sched st.params tDL).1 vDL).1 vm.1
          train_loss := st.train_loss ++ [tm.2]
          train_acc := st.train_acc ++ [tm.1]
          val_loss := st.val_loss ++ [vm.2]
          val_acc := st.val_acc ++ [vm.1] } := by
  simp only [epochStep] at h
  split at h
  · exact absurd h (by simp)
  · rename_i tm htm
    split at h
    · exact absurd h (by simp)
    · rename_i vm hvm
      exact ⟨tm, vm, htm, hvm, (Option.some_inj.mp h).symm⟩

/-- Running one more epoch is running the epochs so far and then one
`epochStep`. -/
theorem runEpochs_succ {P S ι : Type} (env : TrainEnv P S ι)
    (tDL vDL : List (Batch ι)) (k : Nat) (st : LoopState P S) :
    runEpochs env tDL vDL (k + 1) st =
      (runEpochs env tDL vDL k st).bind (epochStep env tDL vDL) := by
  induction k generalizing st with
  | zero =>
    cases h : epochStep env tDL vDL st <;> simp [runEpochs, h]
  | succ k ih =>
    cases h : epochStep env tDL vDL st with
    | none => simp [runEpochs, h]
    | some st1 =>
      have h2 : runEpochs env tDL vDL (k + 1 + 1) st = runEpochs env tDL vDL (k + 1) st1 := by
        simp [runEpochs, h]
      have h3 : runEpochs env tDL vDL (k + 1) st = runEpochs env tDL vDL k st1 := by
        simp [runEpochs, h]
      rw [h2, ih st1, h3]

/-- Each successful run of `n` epochs appends exactly `n` entries to each
of the four histories. -/
theorem runEpochs_hist_len {P S ι : Type} (env : TrainEnv P S ι)
    (tDL vDL : List (Batch ι)) :
    ∀ (n : Nat) (st st' : LoopState P S),
      runEpochs env tDL vDL n st = some st' →
      st'.train_loss.length = st.train_loss.length + n ∧
      st'.train_acc.length = st.train_acc.length + n ∧
      st'.val_loss.length = st.val_loss.length + n ∧
      st'.val_acc.length = st.val_acc.length + n := by
  intro n
  induction n with
  | zero =>
    intro st st' h
    obtain rfl : st = st' := Option.some_inj.mp h
    simp [runEpochs]
  | succ n ih =>
    intro st st' h
    simp only [runEpochs] at h
    split at h
    · exact absurd h (by simp)
    · rename_i st1 h1
      obtain ⟨l1, l2, l3, l4⟩ := ih st1 st' h
      obtain ⟨tm, vm, -, -, rfl⟩ := epochStep_some h1
      simp only [List.length_append, List.length_singleton] at l1 l2 l3 l4
      omega

/-- Maximum of a list extended on the right. -/
theorem listMaxQ_snoc (l : List ℚ) (v : ℚ) :
    listMaxQ (l ++ [v]) = some ((listMaxQ l).elim v (fun m => max m v)) := by
  induction l with
  | nil => simp [listMaxQ]
  | cons y l ih =>
    show listMaxQ (y :: (l ++ [v])) = _
    cases h : listMaxQ l with
    | none =>
      simp only [listMaxQ, ih, h, Option.elim]
    | some m =>
      simp only [listMaxQ, ih, h, Option.elim, Option.some_inj]
      exact (max_assoc y m v).symm

/-- One epoch preserves the invariant that the stored best validation
accuracy is the maximum of the validation-accuracy history. -/
theorem epochStep_best_inv {P S ι : Type} {env : TrainEnv P S ι}
    {tDL vDL : List (Batch ι)} {st st' : LoopState P S}
    (h : epochStep env tDL vDL st = some st')
    (hinv : bestAcc st = listMaxQ st.val_acc) :
    bestAcc st' = listMaxQ st'.val_acc := by
  obtain ⟨tm, vm, -, -, rfl⟩ := epochStep_some h
  simp only [bestAcc, listMaxQ_snoc, ← hinv]
  cases hb : st.best with
  | none => simp [updateBest, bestAcc, hb, Option.elim]
  | some qb =>
    obtain ⟨q, b⟩ := qb
    simp only [bestAcc, hb, Option.map_some, Option.elim]
    by_cases hlt : b < vm.1
    · simp [updateBest, hlt, max_eq_right (le_of_lt hlt)]
    · simp [updateBest, hlt, max_eq_left (not_lt.mp hlt)]

/-- One epoch never decreases the stored best validation accuracy. -/
theorem epochStep_best_mono {P S ι : Type} {env : TrainEnv P S ι}
    {tDL vDL : List (Batch ι)} {st st' : LoopState P S}
    (h : epochStep env tDL vDL st = some st') :
    oLe (bestAcc st) (bestAcc st') := by
  obtain ⟨tm, vm, -, -, rfl⟩ := epochStep_some h
  cases hb : st.best with
  | none => simp [bestAcc, hb, oLe]
  | some qb =>
    obtain ⟨q, b⟩ := qb
    by_cases hlt : b < vm.1
    · simp [bestAcc, hb, updateBest, hlt, oLe, le_of_lt hlt]
    · simp [bestAcc, hb, updateBest, hlt, oLe]

/-- The best-accuracy invariant holds along any successful run. -/
theorem runEpochs_best_inv {P S ι : Type} (env : TrainEnv P S ι)
    (tDL vDL : List (Batch ι)) :
    ∀ (n : Nat) (st st' : LoopState P S),
      runEpochs env tDL vDL n st = some st' →
      bestAcc st = listMaxQ st.val_acc →
      bestAcc st' = listMaxQ st'.val_acc := by
  intro n
  induction n with
  | zero =>
    intro st st' h hinv
    obtain rfl : st = st' := Option.some_inj.mp h
    exact hinv
  | succ n ih =>
    intro st st' h hinv
    simp only [runEpochs] at h
    split at h
    · exact absurd h (by simp)
    · rename_i st1 h1
      exact ih st1 st' h (epochStep_best_inv h1 hinv)

/-- Evaluation statistics are the batchwise sums: total correct count,
total sample count, and the sum of per-batch losses. -/
theorem evalStats_eq {P S ι : Type} (env : TrainEnv P S ι) (p : P)
    (bs : List (Batch ι)) :
    evalStats env p bs =
      ⟨(bs.map (batchCorrect env p)).sum,
       (bs.map batchSize).sum,
       (bs.map (batchLoss env p)).sum⟩ := by
  induction bs with
  | nil => simp [evalStats]
  | cons b bs ih => simp [evalStats, ih]

/-- Training statistics are the batchwise sums, each batch scored with
the parameters in force just before its optimizer step. -/
theorem trainRun_stats {P S ι : Type} (env : TrainEnv P S ι) (s : S) :
    ∀ (p : P) (bs : List (Batch ι)),
      (trainRun env s p bs).2 =
        ⟨(((preParams env s p bs).zip bs).map (fun pb => batchCorrect env pb.1 pb.2)).sum,
         (bs.map batchSize).sum,
         (((preParams env s p bs).zip bs).map (fun pb => batchLoss env pb.1 pb.2)).sum⟩ := by
  intro p bs
  induction bs generalizing p with
  | nil => simp [trainRun, preParams]
  | cons b bs ih => simp [trainRun, preParams, ih]

/-! ## Claim theorems -/

/-- C9: `--run_test` is parsed with `type=bool`, so the non-empty string
"False" in the embedded argument list converts to `True`; `args.run_test`
is therefore true on every invocation, the `if not args.run_test`
early-exit branch is never taken, and the test phase always executes
after training. -/
theorem run_test_flag_is_always_true :
    pyBool "False" = true ∧
    (∀ cli : List String, (mainArgs cli).run_test = true) ∧
    (∀ cli : List String, testPhaseRuns (mainArgs cli) = true) := by
  refine ⟨by decide, fun _ => ?_, fun _ => ?_⟩
  · show (parseArgList defaultArgs embeddedArgv).run_test = true
    decide
  · show testPhaseRuns (parseArgList defaultArgs embeddedArgv) = true
    decide

/-- C10: `parse_args` is called on a hardcoded literal list, so the real
command line is ignored and every run uses the fixed embedded
hyperparameters (architecture mobilenet, 15 epochs, learning rate
0.001, batch size 32, weight decay 0, the embedded image and results
paths) plus the parser defaults for the remaining options. -/
theorem parse_args_ignores_command_line :
    (∀ cli cli' : List String, mainArgs cli = mainArgs cli') ∧
    (∀ cli : List String, mainArgs cli = actualArgs) :=
  ⟨fun _ _ => rfl,
   fun _ => show parseArgList defaultArgs embeddedArgv = actualArgs by decide⟩

/-- C1: at each epoch the best checkpoint is replaced exactly when no
best checkpoint exists yet or this epoch's validation accuracy is
strictly greater than the stored best; ties keep the earlier
checkpoint, so with equal validation accuracy at epochs k and k+1 the
retained checkpoint is the one from epoch k. -/
theorem checkpoint_rule_and_tie_policy {P S ι : Type} :
    (∀ (best : Option (P × ℚ)) (p : P) (a : ℚ),
      updateBest best p a = if shouldReplace best a then some (p, a) else best) ∧
    (∀ (q p : P) (a : ℚ), updateBest (some (q, a)) p a = some (q, a)) ∧
    (∀ (env : TrainEnv P S ι) (tDL vDL : List (Batch ι))
      (st st' : LoopState P S) (q : P) (a : ℚ),
      st.best = some (q, a) → epochStep env tDL vDL st = some st' →
      st'.val_acc = st.val_acc ++ [a] → st'.best = some (q, a)) := by
  refine ⟨?_, ?_, ?_⟩
  · intro best p a
    cases best with
    | none => simp [updateBest, shouldReplace]
    | some qb =>
      obtain ⟨q, b⟩ := qb
      by_cases h : b < a <;> simp [updateBest, shouldReplace, h]
  · intro q p a
    simp [updateBest]
  · intro env tDL vDL st st' q a hb hstep hval
    obtain ⟨tm, vm, -, -, rfl⟩ := epochStep_some hstep
    simp only [List.append_cancel_left_eq, List.cons.injEq, and_true] at hval
    subst hval
    simp [updateBest, hb]

/-- C1 witness: with equal validation accuracy at two consecutive
epochs of the tiny run, the retained checkpoint after the second epoch
is the one taken at the first. -/
theorem checkpoint_tie_policy_witness : tinySt2.best = some (1, 1) :=
  (checkpoint_rule_and_tie_policy (S := Nat) (ι := Nat)).2.2
    tinyEnv [tinyBatch] [tinyBatch] tinySt1 tinySt2 1 1
    (by decide)
    (by simp [epochStep, train_model, trainRun, evaluate_model, evalStats,
              batchCorrect, batchLoss, countCorrect, batchSize, argmaxIdx, argmaxGo,
              updateBest, tinyEnv, tinyBatch, tinySt1, tinySt2])
    (by decide)

/-- C5: the Evaluator leaves the model parameters unchanged, so two
consecutive Evaluator runs on the same split and model return identical
accuracy and identical mean loss. -/
theorem evaluator_pure_and_idempotent {P S ι : Type} :
    ∀ (env : TrainEnv P S ι) (p : P) (bs : List (Batch ι)), bs ≠ [] →
      (evaluate_model env p bs).1 = p ∧
      evaluate_model env (evaluate_model env p bs).1 bs = evaluate_model env p bs := by
  intro env p bs _
  have h1 : (evaluate_model env p bs).1 = p := by
    simp only [evaluate_model]
    split <;> rfl
  exact ⟨h1, by rw [h1]⟩

/-- C5 witness: the Evaluator on the tiny split returns the parameters
unchanged and gives the same result when run twice. -/
theorem evaluator_pure_witness :
    (evaluate_model tinyEnv 0 [tinyBatch]).1 = 0 ∧
    evaluate_model tinyEnv (evaluate_model tinyEnv 0 [tinyBatch]).1 [tinyBatch] =
      evaluate_model tinyEnv 0 [tinyBatch] :=
  evaluator_pure_and_idempotent tinyEnv 0 [tinyBatch] (by decide)

/-- C6: on an empty split the Evaluator hits the division-by-zero fault
during accuracy aggregation, and any Trainer or Evaluator failure
propagates unmodified: a run with an empty validation or training split
aborts with no result and no checkpoint. -/
theorem empty_split_faults_abort_run {P S ι : Type} :
    (∀ (env : TrainEnv P S ι) (p : P),
      (evaluate_model env p ([] : List (Batch ι))).2 = none) ∧
    (∀ (env : TrainEnv P S ι) (n : Nat) (p : P) (s : S)
      (tDL testDL : List (Batch ι)),
      runPipeline env (n + 1) p s tDL [] testDL = none) ∧
    (∀ (env : TrainEnv P S ι) (n : Nat) (p : P) (s : S)
      (vDL testDL : List (Batch ι)),
      runPipeline env (n + 1) p s [] vDL testDL = none) := by
  refine ⟨?_, ?_, ?_⟩
  · intro env p
    simp [evaluate_model, evalStats]
  · intro env n p s tDL testDL
    have he : ∀ st : LoopState P S, epochStep env tDL [] st = none := by
      intro st
      simp only [epochStep, evaluate_model, evalStats]
      split
      · rfl
      · rfl
    simp [runPipeline, train_validate, stateAfter, runEpochs, he]
  · intro env n p s vDL testDL
    have he : ∀ st : LoopState P S, epochStep env [] vDL st = none := by
      intro st
      simp [epochStep, train_model, trainRun]
    simp [runPipeline, train_validate, stateAfter, runEpochs, he]

/-- C7: a completed run appends exactly one entry per epoch, in epoch
order, to each of the four histories, and each returned history has
length exactly `epochs`. -/
theorem histories_have_length_epochs {P S ι : Type} :
    (∀ (env : TrainEnv P S ι) (tDL vDL : List (Batch ι))
      (st st' : LoopState P S),
      epochStep env tDL vDL st = some st' →
      ∃ ta tl va vl : ℚ,
        st'.train_loss = st.train_loss ++ [tl] ∧
        st'.train_acc = st.train_acc ++ [ta] ∧
        st'.val_loss = st.val_loss ++ [vl] ∧
        st'.val_acc = st.val_acc ++ [va]) ∧
    (∀ (env : TrainEnv P S ι) (epochs : Nat) (p : P) (s : S)
      (tDL vDL : List (Batch ι)) (w : P) (tl ta vl va : List ℚ),
      train_validate env epochs p s tDL vDL = some (w, tl, ta, vl, va) →
      tl.length = epochs ∧ ta.length = epochs ∧
      vl.length = epochs ∧ va.length = epochs) := by
  constructor
  · intro env tDL vDL st st' h
    obtain ⟨tm, vm, -, -, rfl⟩ := epochStep_some h
    exact ⟨tm.1, tm.2, vm.1, vm.2, rfl, rfl, rfl, rfl⟩
  · intro env epochs p s tDL vDL w tl ta vl va h
    simp only [train_validate] at h
    split at h
    · exact absurd h (by simp)
    · rename_i st hst
      split at h
      · exact absurd h (by simp)
      · rename_i wb hwb
        simp only [Option.some_inj, Prod.mk.injEq] at h
        obtain ⟨-, rfl, rfl, rfl, rfl⟩ := h
        simp only [stateAfter] at hst
        have := runEpochs_hist_len env tDL vDL epochs (initState p s) st hst
        simpa [initState] using this

/-- C7 witness: the tiny two-epoch run returns four histories of length
two. -/
theorem histories_length_witness :
    ([0, 0] : List ℚ).length = 2 ∧ ([1, 1] : List ℚ).length = 2 ∧
    ([0, 0] : List ℚ).length = 2 ∧ ([1, 1] : List ℚ).length = 2 :=
  (histories_have_length_epochs (S := Nat) (ι := Nat)).2
    tinyEnv 2 0 0 [tinyBatch] [tinyBatch] 1 [0, 0] [1, 1] [0, 0] [1, 1]
    (by simp [train_validate, stateAfter, runEpochs, epochStep, train_model, trainRun,
              evaluate_model, evalStats, batchCorrect, batchLoss, countCorrect, batchSize,
              argmaxIdx, argmaxGo, updateBest, initState, tinyEnv, tinyBatch])

/-- C2: when the pipeline completes, the returned weights are exactly
the best-checkpoint parameters of the final loop state, and the final
test accuracy and loss come from the single Evaluator invocation on the
test split with those restored parameters. -/
theorem final_test_uses_best_checkpoint {P S ι : Type} :
    ∀ (env : TrainEnv P S ι) (epochs : Nat) (p : P) (s : S)
      (tDL vDL testDL : List (Batch ι)) (r : RunResult P),
      runPipeline env epochs p s tDL vDL testDL = some r →
      ∃ (st : LoopState P S) (a : ℚ),
        stateAfter env tDL vDL p s epochs = some st ∧
        st.best = some (r.weights, a) ∧
        (evaluate_model env r.weights testDL).2 = some (r.test_acc, r.test_loss) := by
  intro env epochs p s tDL vDL testDL r h
  simp only [runPipeline] at h
  split at h
  · exact absurd h (by simp)
  · rename_i w tl ta vl va htv
    split at h
    · exact absurd h (by simp)
    · rename_i t ht
      obtain rfl : _ = r := Option.some_inj.mp h
      simp only [train_validate] at htv
      split at htv
      · exact absurd htv (by simp)
      · rename_i st hst
        split at htv
        · exact absurd htv (by simp)
        · rename_i wb hwb
          simp only [Option.some_inj, Prod.mk.injEq] at htv
          obtain ⟨rfl, -, -, -, -⟩ := htv
          exact ⟨st, wb.2, hst, by simpa using hwb, by simpa using ht⟩

/-- C2 witness: the tiny one-epoch pipeline tests with the
best-checkpoint parameters. -/
theorem final_test_witness :
    ∃ (st : LoopState Nat Nat) (a : ℚ),
      stateAfter tinyEnv [tinyBatch] [tinyBatch] 0 0 1 = some st ∧
      st.best = some (1, a) ∧
      (evaluate_model tinyEnv 1 [tinyBatch]).2 = some (1, 0) :=
  final_test_uses_best_checkpoint tinyEnv 1 0 0 [tinyBatch] [tinyBatch] [tinyBatch]
    ⟨1, [0], [1], [0], [1], 1, 0⟩
    (by simp [runPipeline, train_validate, stateAfter, runEpochs, epochStep, train_model,
              trainRun, evaluate_model, evalStats, batchCorrect, batchLoss, countCorrect,
              batchSize, argmaxIdx, argmaxGo, updateBest, initState, tinyEnv, tinyBatch])

/-- C3: the stored best validation accuracy never decreases from one
epoch to the next, and after any number of completed epochs it equals
the maximum of the recorded per-epoch validation accuracies. -/
theorem best_accuracy_monotone_equals_max {P S ι : Type} :
    ∀ (env : TrainEnv P S ι) (tDL vDL : List (Batch ι)) (p : P) (s : S),
      (∀ (k : Nat) (st st' : LoopState P S),
        stateAfter env tDL vDL p s k = some st →
        stateAfter env tDL vDL p s (k + 1) = some st' →
        oLe (bestAcc st) (bestAcc st')) ∧
      (∀ (n : Nat) (st : LoopState P S),
        stateAfter env tDL vDL p s n = some st →
        bestAcc st = listMaxQ st.val_acc) := by
  intro env tDL vDL p s
  constructor
  · intro k st st' h1 h2
    simp only [stateAfter] at h1 h2
    rw [runEpochs_succ, h1, Option.some_bind] at h2
    exact epochStep_best_mono h2
  · intro n st h
    simp only [stateAfter] at h
    exact runEpochs_best_inv env tDL vDL n _ st h (by simp [initState, bestAcc, listMaxQ])

/-- C3 witness: across the two tiny epochs the stored best accuracy does
not decrease, and after both epochs it is the maximum of the recorded
validation accuracies. -/
theorem best_accuracy_witness :
    oLe (bestAcc tinySt1) (bestAcc tinySt2) ∧
    bestAcc tinySt2 = listMaxQ tinySt2.val_acc :=
  ⟨(best_accuracy_monotone_equals_max tinyEnv [tinyBatch] [tinyBatch] 0 0).1 1 tinySt1 tinySt2
    (by simp [stateAfter, runEpochs, epochStep, train_model, trainRun, evaluate_model,
              evalStats, batchCorrect, batchLoss, countCorrect, batchSize, argmaxIdx,
              argmaxGo, updateBest, initState, tinyEnv, tinyBatch, tinySt1])
    (by simp [stateAfter, runEpochs, epochStep, train_model, trainRun, evaluate_model,
              evalStats, batchCorrect, batchLoss, countCorrect, batchSize, argmaxIdx,
              argmaxGo, updateBest, initState, tinyEnv, tinyBatch, tinySt2]),
   (best_accuracy_monotone_equals_max tinyEnv [tinyBatch] [tinyBatch] 0 0).2 2 tinySt2
    (by simp [stateAfter, runEpochs, epochStep, train_model, trainRun, evaluate_model,
              evalStats, batchCorrect, batchLoss, countCorrect, batchSize, argmaxIdx,
              argmaxGo, updateBest, initState, tinyEnv, tinyBatch, tinySt2])⟩

/-- C4: the Evaluator's accuracy is the total correct count divided by
the total sample count and its mean loss is the unweighted mean of the
per-batch losses; the Trainer aggregates its epoch metrics by the same
rule, scoring each batch with the parameters in force just before that
batch's update. -/
theorem metric_aggregation_rule {P S ι : Type} :
    ∀ (env : TrainEnv P S ι) (s : S) (p : P) (bs : List (Batch ι)),
      (∀ a m : ℚ, (evaluate_model env p bs).2 = some (a, m) →
        a = ((bs.map (batchCorrect env p)).sum : ℚ) / ((bs.map batchSize).sum : ℚ) ∧
        m = (bs.map (batchLoss env p)).sum / (bs.length : ℚ)) ∧
      (∀ a m : ℚ, (train_model env s p bs).2 = some (a, m) →
        a = ((((preParams env s p bs).zip bs).map
              (fun pb => batchCorrect env pb.1 pb.2)).sum : ℚ) /
            ((bs.map batchSize).sum : ℚ) ∧
        m = (((preParams env s p bs).zip bs).map
              (fun pb => batchLoss env pb.1 pb.2)).sum / (bs.length : ℚ)) := by
  intro env s p bs
  constructor
  · intro a m h
    simp only [evaluate_model, evalStats_eq] at h
    split at h
    · exact absurd h (by simp)
    · simp only [Option.some_inj, Prod.mk.injEq] at h
      exact ⟨h.1.symm, h.2.symm⟩
  · intro a m h
    simp only [train_model, trainRun_stats] at h
    split at h
    · exact absurd h (by simp)
    · simp only [Option.some_inj, Prod.mk.injEq] at h
      exact ⟨h.1.symm, h.2.symm⟩

/-- C4 witness: on the tiny one-batch split both the Evaluator and the
Trainer metrics match the stated aggregation formulas. -/
theorem metric_aggregation_witness :
    ((1 : ℚ) = (([tinyBatch].map (batchCorrect tinyEnv 0)).sum : ℚ) /
        (([tinyBatch].map batchSize).sum : ℚ) ∧
      (0 : ℚ) = ([tinyBatch].map (batchLoss tinyEnv 0)).sum /
        (([tinyBatch] : List (Batch Nat)).length : ℚ)) ∧
    ((1 : ℚ) = ((((preParams tinyEnv 0 0 [tinyBatch]).zip [tinyBatch]).map
          (fun pb => batchCorrect tinyEnv pb.1 pb.2)).sum : ℚ) /
        (([tinyBatch].map batchSize).sum : ℚ) ∧
      (0 : ℚ) = (((preParams tinyEnv 0 0 [tinyBatch]).zip [tinyBatch]).map
          (fun pb => batchLoss tinyEnv pb.1 pb.2)).sum /
        (([tinyBatch] : List (Batch Nat)).length : ℚ)) :=
  ⟨(metric_aggregation_rule tinyEnv 0 0 [tinyBatch]).1 1 0
    (by simp [evaluate_model, evalStats, batchCorrect, batchLoss, countCorrect, batchSize,
              argmaxIdx, argmaxGo, tinyEnv, tinyBatch]),
   (metric_aggregation_rule tinyEnv 0 0 [tinyBatch]).2 1 0
    (by simp [train_model, trainRun, batchCorrect, batchLoss, countCorrect, batchSize,
              argmaxIdx, argmaxGo, tinyEnv, tinyBatch])⟩

/-- C8: the core is deterministic — two runs of the pipeline on
identical inputs return identical metric histories, epoch by epoch. -/
theorem identical_inputs_identical_histories {P S ι : Type} :
    ∀ (env : TrainEnv P S ι) (epochs : Nat) (p : P) (s : S)
      (tDL vDL testDL : List (Batch ι)) (r1 r2 : RunResult P),
      runPipeline env epochs p s tDL vDL testDL = some r1 →
      runPipeline env epochs p s tDL vDL testDL = some r2 →
      r1.train_loss = r2.train_loss ∧ r1.train_acc = r2.train_acc ∧
      r1.val_loss = r2.val_loss ∧ r1.val_acc = r2.val_acc := by
  intro env epochs p s tDL vDL testDL r1 r2 h1 h2
  rw [h1] at h2
  obtain rfl : r1 = r2 := Option.some_inj.mp h2
  exact ⟨rfl, rfl, rfl, rfl⟩

/-- C8 witness: two identical tiny runs agree on all four histories. -/
theorem identical_runs_witness :
    ([0] : List ℚ) = [0] ∧ ([1] : List ℚ) = [1] ∧
    ([0] : List ℚ) = [0] ∧ ([1] : List ℚ) = [1] :=
  identical_inputs_identical_histories tinyEnv 1 0 0 [tinyBatch] [tinyBatch] [tinyBatch]
    ⟨1, [0], [1], [0], [1], 1, 0⟩ ⟨1, [0], [1], [0], [1], 1, 0⟩
    (by simp [runPipeline, train_validate, stateAfter, runEpochs, epochStep, train_model,
              trainRun, evaluate_model, evalStats, batchCorrect, batchLoss, countCorrect,
              batchSize, argmaxIdx, argmaxGo, updateBest, initState, tinyEnv, tinyBatch])
    (by simp [runPipeline, train_validate, stateAfter, runEpochs, epochStep, train_model,
              trainRun, evaluate_model, evalStats, batchCorrect, batchLoss, countCorrect,
              batchSize, argmaxIdx, argmaxGo, updateBest, initState, tinyEnv, tinyBatch])

end AnimalClassification
